import Mathlib

/-!
Verification of the edge authentication / routing Lambda of the
multi-site static hosting platform (`lambda/edge-auth` handler).

Modelling conventions (shallow embedding):

* JavaScript strings are modelled as their UTF-8 byte sequences,
  `List Nat` with every byte `< 256`.  All string literals used by the
  handler are ASCII, so a literal `"abc"` corresponds to the byte list
  produced by `bytes "abc"` below.  Splitting a UTF-8 byte sequence at
  the ASCII byte `124` (`'|'`) agrees with splitting the JS string at
  `'|'`, because ASCII bytes never occur inside multi-byte UTF-8
  sequences.
* `Buffer.from(s).toString('base64')` / `Buffer.from(s, 'base64')` are
  modelled by `b64encode` / `b64decode` following Node's documented
  behaviour: encoding is standard RFC 4648 base64 with `=` padding;
  decoding is lenient, it accepts the URL-safe alphabet as well and
  silently skips every byte that is not in the alphabet (in particular
  it never throws).
* Effectful collaborators (SSM parameter store, the token-endpoint
  `fetch`, `jose.jwtVerify`) are modelled by oracles packaged in a
  `World`; a JS exception that the source code does not catch is
  modelled by `Except.error`.
-/

/-- Byte sequence of an ASCII string literal (UTF-8 bytes; all literals
in the handler are ASCII so `Char.toNat` is the byte value). -/
def bytes (s : String) : List Nat :=
  s.data.map Char.toNat

/-- ECMAScript `String.prototype.split` with a one-character separator,
on byte sequences.  Always returns a non-empty list. -/
def jsSplit (sep : Nat) : List Nat → List (List Nat)
  | [] => [[]]
  | b :: rest =>
    let r := jsSplit sep rest
    if b = sep then
      [] :: r
    else
      match r with
      | h :: t => (b :: h) :: t
      | [] => [[b]]

/-- ECMAScript `Array.prototype.join` with a one-character separator. -/
def jsJoin (sep : Nat) : List (List Nat) → List Nat
  | [] => []
  | [x] => x
  | x :: xs => x ++ sep :: jsJoin sep xs

theorem jsSplit_ne_nil (sep : Nat) (l : List Nat) : jsSplit sep l ≠ [] := by
  cases l with
  | nil => simp [jsSplit]
  | cons b rest =>
    simp only [jsSplit]
    split
    · simp
    · split
      · simp
      · simp

/-- `join` is a left inverse of `split`. -/
theorem jsJoin_jsSplit (sep : Nat) (l : List Nat) :
    jsJoin sep (jsSplit sep l) = l := by
  induction l with
  | nil => simp [jsSplit, jsJoin]
  | cons b rest ih =>
    simp only [jsSplit]
    by_cases hb : b = sep
    · subst hb
      rw [if_pos rfl]
      rcases hr : jsSplit b rest with _ | ⟨h, t⟩
      · exact absurd hr (jsSplit_ne_nil b rest)
      · rw [hr] at ih
        cases t with
        | nil => simp_all [jsJoin]
        | cons h2 t2 => simp_all [jsJoin]
    · rw [if_neg hb]
      rcases hr : jsSplit sep rest with _ | ⟨h, t⟩
      · exact absurd hr (jsSplit_ne_nil sep rest)
      · rw [hr] at ih
        cases t with
        | nil => simp_all [jsJoin]
        | cons h2 t2 => simp_all [jsJoin]

/-- Splitting a concatenation whose left part avoids the separator. -/
theorem jsSplit_append (sep : Nat) (h p : List Nat) (hh : sep ∉ h) :
    jsSplit sep (h ++ sep :: p) = h :: jsSplit sep p := by
  induction h with
  | nil => simp [jsSplit]
  | cons b rest ih =>
    have hb : b ≠ sep := by
      intro e; exact hh (e ▸ List.mem_cons_self b rest)
    have hrest : sep ∉ rest := fun m => hh (List.mem_cons_of_mem b m)
    show jsSplit sep (b :: (rest ++ sep :: p)) = (b :: rest) :: jsSplit sep p
    simp only [jsSplit]
    rw [if_neg hb, ih hrest]

/- ## Base64 (Node `Buffer`) -/

/-- Code point of the standard base64 alphabet character for a sextet. -/
def b64char (n : Nat) : Nat :=
  if n < 26 then 65 + n
  else if n < 52 then 97 + (n - 26)
  else if n < 62 then 48 + (n - 52)
  else if n = 62 then 43
  else 47

/-- Lenient decoding table: standard alphabet plus the URL-safe `-` and
`_`; every other byte (including `=` padding) is skipped by Node. -/
def b64value (c : Nat) : Option Nat :=
  if 65 ≤ c ∧ c ≤ 90 then some (c - 65)
  else if 97 ≤ c ∧ c ≤ 122 then some (26 + (c - 97))
  else if 48 ≤ c ∧ c ≤ 57 then some (52 + (c - 48))
  else if c = 43 ∨ c = 45 then some 62
  else if c = 47 ∨ c = 95 then some 63
  else none

/-- `Buffer.prototype.toString('base64')`: RFC 4648 with `=` padding. -/
def b64encode : List Nat → List Nat
  | b1 :: b2 :: b3 :: rest =>
      b64char (b1 / 4) :: b64char (b1 % 4 * 16 + b2 / 16) ::
      b64char (b2 % 16 * 4 + b3 / 64) :: b64char (b3 % 64) :: b64encode rest
  | [b1, b2] => [b64char (b1 / 4), b64char (b1 % 4 * 16 + b2 / 16), b64char (b2 % 16 * 4), 61]
  | [b1] => [b64char (b1 / 4), b64char (b1 % 4 * 16), 61, 61]
  | [] => []

/-- Reassemble bytes from a stream of sextets; a trailing group of 2 or
3 sextets yields 1 or 2 bytes, a lone trailing sextet is dropped. -/
def b64decodeQuads : List Nat → List Nat
  | s1 :: s2 :: s3 :: s4 :: rest =>
      (s1 * 4 + s2 / 16) :: (s2 % 16 * 16 + s3 / 4) :: (s3 % 4 * 64 + s4) :: b64decodeQuads rest
  | [s1, s2, s3] => [s1 * 4 + s2 / 16, s2 % 16 * 16 + s3 / 4]
  | [s1, s2] => [s1 * 4 + s2 / 16]
  | _ => []

/-- `Buffer.from(s, 'base64')`: lenient, total — invalid bytes are
skipped, so this function never fails (Node never throws here). -/
def b64decode (s : List Nat) : List Nat :=
  b64decodeQuads (s.filterMap b64value)

theorem b64value_b64char : ∀ n < 64, b64value (b64char n) = some n := by decide

theorem b64value_pad : b64value 61 = none := by decide

theorem b64decode_b64encode :
    ∀ bs : List Nat, (∀ b ∈ bs, b < 256) → b64decode (b64encode bs) = bs := by
  have key : ∀ n : Nat, ∀ bs : List Nat, bs.length ≤ n → (∀ b ∈ bs, b < 256) →
      b64decode (b64encode bs) = bs := by
    intro n
    induction n with
    | zero =>
      intro bs hlen _
      have : bs = [] := List.length_eq_zero.mp (Nat.le_zero.mp hlen)
      subst this; rfl
    | succ n ih =>
      intro bs hlen hb
      match bs with
      | [] => rfl
      | [b1] =>
        have h1 : b1 < 256 := hb b1 (by simp)
        have e1 := b64value_b64char (b1 / 4) (by omega)
        have e2 := b64value_b64char (b1 % 4 * 16) (by omega)
        simp only [b64encode, b64decode, List.filterMap_cons, List.filterMap_nil,
          e1, e2, b64value_pad]
        simp only [b64decodeQuads, List.cons.injEq, and_true]
        omega
      | [b1, b2] =>
        have h1 : b1 < 256 := hb b1 (by simp)
        have h2 : b2 < 256 := hb b2 (by simp)
        have e1 := b64value_b64char (b1 / 4) (by omega)
        have e2 := b64value_b64char (b1 % 4 * 16 + b2 / 16) (by omega)
        have e3 := b64value_b64char (b2 % 16 * 4) (by omega)
        simp only [b64encode, b64decode, List.filterMap_cons, List.filterMap_nil,
          e1, e2, e3, b64value_pad]
        simp only [b64decodeQuads, List.cons.injEq, and_true]
        omega
      | b1 :: b2 :: b3 :: rest =>
        have h1 : b1 < 256 := hb b1 (by simp)
        have h2 : b2 < 256 := hb b2 (by simp)
        have h3 : b3 < 256 := hb b3 (by simp)
        have hrest : ∀ b ∈ rest, b < 256 := fun b m => hb b (by simp [m])
        have hlen' : rest.length ≤ n := by
          simp only [List.length_cons] at hlen; omega
        have ihr : b64decodeQuads ((b64encode rest).filterMap b64value) = rest :=
          ih rest hlen' hrest
        have e1 := b64value_b64char (b1 / 4) (by omega)
        have e2 := b64value_b64char (b1 % 4 * 16 + b2 / 16) (by omega)
        have e3 := b64value_b64char (b2 % 16 * 4 + b3 / 64) (by omega)
        have e4 := b64value_b64char (b3 % 64) (by omega)
        simp only [b64encode, b64decode, List.filterMap_cons, e1, e2, e3, e4]
        simp only [b64decodeQuads, ihr, List.cons.injEq, and_true]
        omega
  intro bs hb
  exact key bs.length bs (Nat.le_refl _) hb

/- ## Constants of the edge handler -/

def COOKIE_NAME : List Nat := bytes "hosting_auth"

def COOKIE_DOMAIN : List Nat := bytes ".hosting.nipalm.com"

def BASE_DOMAIN : List Nat := bytes ".hosting.nipalm.com"

def APEX_DOMAIN : List Nat := bytes "hosting.nipalm.com"

/- ## Redirect-state codec -/

/-- `encodeState`: base64 of `` `${host}|${path}` `` (the delimiter
`'|'` is byte 124). -/
def encodeState (host path : List Nat) : List Nat :=
  b64encode (host ++ 124 :: path)

/-- `decodeState`: lenient base64 decode, split on `'|'`, first field is
the host, the remaining fields re-joined with `'|'` are the path, with
`|| '/'` defaulting an empty path to `"/"`.  The source wraps this in
`try/catch` returning `(APEX_DOMAIN, '/')`, but `Buffer.from(_, 'base64')`
and `String.prototype.split` never throw, so the catch branch is dead
and the model is total without it. -/
def decodeState (state : List Nat) : List Nat × List Nat :=
  let decoded := b64decode state
  match jsSplit 124 decoded with
  | host :: pathParts =>
    let p := jsJoin 124 pathParts
    (host, if p = [] then bytes "/" else p)
  | [] => (APEX_DOMAIN, bytes "/")  -- unreachable: jsSplit never returns []

/- ## Subdomain routing (`applySubdomainRouting`) -/

/-- `subdomain.includes(pat)` on byte sequences. -/
def jsIncludes (s pat : List Nat) : Bool :=
  (List.range (s.length + 1)).any fun i => pat.isPrefixOf (s.drop i)

/-- ECMAScript `String.prototype.replace` with a plain-string pattern
and empty replacement: removes the first occurrence of `pat` (the
source calls `host.replace(BASE_DOMAIN, '')`). -/
def replaceOnce (pat : List Nat) : List Nat → List Nat
  | [] => []
  | b :: rest =>
    if pat.isPrefixOf (b :: rest) then (b :: rest).drop pat.length
    else b :: replaceOnce pat rest

/-- `\w` of the JS regex `/\.\w+$/`. -/
def isWordByte (b : Nat) : Bool :=
  (48 ≤ b ∧ b ≤ 57) ∨ (65 ≤ b ∧ b ≤ 90) ∨ (97 ≤ b ∧ b ≤ 122) ∨ b = 95

/-- `/\.\w+$/.test(uri)`: the maximal trailing run of word bytes is
non-empty and is preceded by a `'.'` (byte 46). -/
def hasExtension (uri : List Nat) : Bool :=
  let r := uri.reverse
  let w := r.takeWhile isWordByte
  w ≠ [] ∧ (r.drop w.length).head? = some 46

/-- `uri.endsWith('/')`. -/
def endsWithSlash (uri : List Nat) : Bool :=
  uri.getLast? = some 47

/-- `'/' + errorFolder + '/404.html'` with `errorFolder = '_errors'`. -/
def notFoundUri : List Nat := bytes "/_errors/404.html"

/-- SPA-fallback rewrite applied once the subdomain was validated
(source lines: `if (endsWithSlash) ... else if (!hasExtension) ... else ...`). -/
def spaRewrite (uri subdomain : List Nat) : List Nat :=
  if endsWithSlash uri then bytes "/" ++ subdomain ++ uri ++ bytes "index.html"
  else if ¬ hasExtension uri then bytes "/" ++ subdomain ++ uri ++ bytes "/index.html"
  else bytes "/" ++ subdomain ++ uri

/-- The validation step `if (!subdomain || subdomain.includes('/') ||
subdomain.includes('..'))` followed by the SPA rules. -/
def validateAndRoute (uri subdomain : List Nat) : List Nat :=
  if subdomain = [] ∨ jsIncludes subdomain (bytes "/") ∨ jsIncludes subdomain (bytes "..")
  then notFoundUri
  else spaRewrite uri subdomain

/-- `applySubdomainRouting`, as a pure function from the request URI and
the `Host` header value to the rewritten URI.  Control flow mirrors the
source: a host ending in `BASE_DOMAIN` gets its subdomain extracted via
`replace`; the apex host returns the 404 page early; any other host
falls through with the subdomain still `''` and fails validation. -/
def applySubdomainRouting (uri host : List Nat) : List Nat :=
  if BASE_DOMAIN.isSuffixOf host then
    validateAndRoute uri (replaceOnce BASE_DOMAIN host)
  else if host = APEX_DOMAIN then
    notFoundUri
  else
    validateAndRoute uri []

/-- The derived tenant prefix of a host, as the code computes it:
the result of `host.replace(BASE_DOMAIN, '')` when the host ends in the
base-domain suffix, and the initial `''` otherwise. -/
def derivedSubdomain (host : List Nat) : List Nat :=
  if BASE_DOMAIN.isSuffixOf host then replaceOnce BASE_DOMAIN host else []

example : applySubdomainRouting (bytes "/app.js") (bytes "app.hosting.nipalm.com") =
    bytes "/app/app.js" := by decide

example : applySubdomainRouting (bytes "/dashboard") (bytes "app.hosting.nipalm.com") =
    bytes "/app/dashboard/index.html" := by decide

example : applySubdomainRouting (bytes "/") (bytes "app.hosting.nipalm.com") =
    bytes "/app/index.html" := by decide

example : applySubdomainRouting (bytes "/x") (bytes "evil.com") = notFoundUri := by decide

example : decodeState (encodeState (bytes "app.example.com") (bytes "/dashboard")) =
    (bytes "app.example.com", bytes "/dashboard") := by decide

/- ## Claim C1 — redirect-state round trip -/

/-- C1 (counterexample): the round trip is *not* the identity for every
pair whose host avoids the delimiter — for the empty path, `decodeState`
returns `"/"` (the `|| '/'` default), not the empty path. -/
theorem decodeState_encodeState_empty_path_cex :
    decodeState (encodeState (bytes "app.example.com") []) =
      (bytes "app.example.com", bytes "/") ∧
    (bytes "app.example.com", bytes "/") ≠ (bytes "app.example.com", ([] : List Nat)) := by
  constructor
  · decide
  · decide

/-- C1 (amended): for every `(host, path)` pair of byte strings with no
delimiter byte `'|'` in the host and a non-empty path, decoding the
encoding returns exactly the same pair; for the empty path the decoded
path is `"/"` instead (see the counterexample). -/
theorem decodeState_encodeState (host path : List Nat)
    (hhost : ∀ b ∈ host, b < 256) (hpath : ∀ b ∈ path, b < 256)
    (hdelim : 124 ∉ host) (hne : path ≠ []) :
    decodeState (encodeState host path) = (host, path) := by
  have hall : ∀ b ∈ host ++ 124 :: path, b < 256 := by
    intro b m
    rcases List.mem_append.mp m with h | h
    · exact hhost b h
    · rcases List.mem_cons.mp h with h | h
      · omega
      · exact hpath b h
  simp only [decodeState, encodeState]
  rw [b64decode_b64encode _ hall, jsSplit_append _ _ _ hdelim]
  simp only [jsJoin_jsSplit]
  rw [if_neg hne]

/-- C1 witness: concrete round trip, path containing the delimiter. -/
theorem decodeState_encodeState_witness :
    decodeState (encodeState (bytes "app.example.com") (bytes "/dash?a=1|2")) =
      (bytes "app.example.com", bytes "/dash?a=1|2") :=
  decodeState_encodeState (bytes "app.example.com") (bytes "/dash?a=1|2")
    (by decide) (by decide) (by decide) (by decide)

/- ## Claim C6 — malformed state input -/

/-- C6 (counterexample): Node's lenient base64 decode never throws, so
the `catch` branch returning the apex default is unreachable; a fully
malformed input decodes to the *empty* host, not the apex host. -/
theorem decodeState_malformed_cex :
    decodeState (bytes "####") = ([], bytes "/") ∧
    decodeState (bytes "####") ≠ (APEX_DOMAIN, bytes "/") := by
  constructor
  · decide
  · decide

/-- C6 (amended): decoding is total — no exception can propagate, since
the lenient base64 decoder skips invalid bytes instead of failing — and
for a malformed input with no valid base64 character the result is
`("", "/")` (empty host, root path), not the apex-host default of the
dead `catch` branch. -/
theorem decodeState_malformed (s : List Nat) (h : ∀ c ∈ s, b64value c = none) :
    decodeState s = ([], bytes "/") := by
  have hdec : b64decode s = [] := by
    unfold b64decode
    rw [List.filterMap_eq_nil_iff.mpr h]
    rfl
  simp [decodeState, hdec, jsSplit, jsJoin]

/-- C6 witness: the theorem applied to the concrete input `"####"`. -/
theorem decodeState_malformed_witness :
    decodeState (bytes "####") = ([], bytes "/") :=
  decodeState_malformed (bytes "####") (by decide)

/- ## Claim C10 — decoded path is never empty -/

/-- C10: for every input string the decoded path component is non-empty
(an empty remainder after the first delimiter is defaulted to `"/"`),
and in particular `decodeState (encodeState host "") = (host, "/")`. -/
theorem decodeState_path_nonempty (s host : List Nat)
    (hhost : ∀ b ∈ host, b < 256) (hdelim : 124 ∉ host) :
    (decodeState s).2 ≠ [] ∧
    decodeState (encodeState host []) = (host, bytes "/") := by
  constructor
  · unfold decodeState
    rcases hsp : jsSplit 124 (b64decode s) with _ | ⟨hd, tl⟩
    · exact absurd hsp (jsSplit_ne_nil _ _)
    · by_cases hp : jsJoin 124 tl = []
      · simp [hsp, hp, bytes]
      · simp [hsp, hp]
  · have hall : ∀ b ∈ host ++ 124 :: ([] : List Nat), b < 256 := by
      intro b m
      rcases List.mem_append.mp m with h | h
      · exact hhost b h
      · rcases List.mem_cons.mp h with h | h
        · omega
        · simp at h
    simp only [decodeState, encodeState]
    rw [b64decode_b64encode _ hall, jsSplit_append _ _ _ hdelim]
    simp [jsSplit, jsJoin]

/-- C10 witness: concrete instances of both conjuncts. -/
theorem decodeState_path_nonempty_witness :
    (decodeState (bytes "zzzz")).2 ≠ [] ∧
    decodeState (encodeState (bytes "app.example.com") []) =
      (bytes "app.example.com", bytes "/") :=
  decodeState_path_nonempty (bytes "zzzz") (bytes "app.example.com")
    (by decide) (by decide)

/- ## Claim C2 — invalid hosts are routed to the 404 page -/

/-- C2: any host that does not end in the base-domain suffix and is not
the apex domain, and any host whose derived tenant prefix is empty,
contains `'/'`, or contains `".."`, is rewritten to the fixed not-found
page path. -/
theorem applySubdomainRouting_invalid_host (uri host : List Nat)
    (h : (BASE_DOMAIN.isSuffixOf host = false ∧ host ≠ APEX_DOMAIN) ∨
         derivedSubdomain host = [] ∨
         jsIncludes (derivedSubdomain host) (bytes "/") = true ∨
         jsIncludes (derivedSubdomain host) (bytes "..") = true) :
    applySubdomainRouting uri host = notFoundUri := by
  by_cases hsuf : BASE_DOMAIN.isSuffixOf host
  · simp only [applySubdomainRouting, if_pos hsuf, validateAndRoute]
    simp only [derivedSubdomain, if_pos hsuf] at h
    rcases h with ⟨hfalse, _⟩ | h | h | h
    · rw [hsuf] at hfalse; exact absurd hfalse (by decide)
    · rw [if_pos (Or.inl h)]
    · rw [if_pos (Or.inr (Or.inl h))]
    · rw [if_pos (Or.inr (Or.inr h))]
  · simp only [applySubdomainRouting, if_neg hsuf]
    by_cases hapex : host = APEX_DOMAIN
    · rw [if_pos hapex]
    · rw [if_neg hapex]
      simp [validateAndRoute]

/-- C2 witness: a foreign host is rewritten to the 404 page. -/
theorem applySubdomainRouting_invalid_host_witness :
    applySubdomainRouting (bytes "/x") (bytes "evil.com") = notFoundUri :=
  applySubdomainRouting_invalid_host (bytes "/x") (bytes "evil.com")
    (Or.inl (by decide))

/- ## Claim C3 — SPA fallback rules: exclusive, total, and exact -/

/-- C3: for a request routed to a valid tenant prefix, the three SPA
rules partition all URIs (exactly one applies) and each rule produces
exactly the rewritten path stated: trailing `/` appends `index.html`
directly, an extensionless path appends `/index.html`, a path with a
trailing dot-extension is kept unchanged after the prefix. -/
theorem applySubdomainRouting_spa (uri host : List Nat)
    (hsuf : BASE_DOMAIN.isSuffixOf host = true)
    (hne : replaceOnce BASE_DOMAIN host ≠ [])
    (hslash : jsIncludes (replaceOnce BASE_DOMAIN host) (bytes "/") = false)
    (hdots : jsIncludes (replaceOnce BASE_DOMAIN host) (bytes "..") = false) :
    (endsWithSlash uri = true ∨
      (endsWithSlash uri = false ∧ hasExtension uri = false) ∨
      (endsWithSlash uri = false ∧ hasExtension uri = true)) ∧
    (¬(endsWithSlash uri = true ∧ endsWithSlash uri = false ∧ hasExtension uri = false) ∧
     ¬(endsWithSlash uri = true ∧ endsWithSlash uri = false ∧ hasExtension uri = true) ∧
     ¬((endsWithSlash uri = false ∧ hasExtension uri = false) ∧
       endsWithSlash uri = false ∧ hasExtension uri = true)) ∧
    (endsWithSlash uri = true →
      applySubdomainRouting uri host =
        bytes "/" ++ replaceOnce BASE_DOMAIN host ++ uri ++ bytes "index.html") ∧
    (endsWithSlash uri = false ∧ hasExtension uri = false →
      applySubdomainRouting uri host =
        bytes "/" ++ replaceOnce BASE_DOMAIN host ++ uri ++ bytes "/index.html") ∧
    (endsWithSlash uri = false ∧ hasExtension uri = true →
      applySubdomainRouting uri host =
        bytes "/" ++ replaceOnce BASE_DOMAIN host ++ uri) := by
  have hroute : applySubdomainRouting uri host =
      spaRewrite uri (replaceOnce BASE_DOMAIN host) := by
    simp only [applySubdomainRouting, if_pos hsuf, validateAndRoute]
    rw [if_neg]
    intro hc
    rcases hc with hc | hc | hc
    · exact hne hc
    · rw [hslash] at hc; exact absurd hc (by decide)
    · rw [hdots] at hc; exact absurd hc (by decide)
  refine ⟨?_, ?_, ?_, ?_, ?_⟩
  · cases he : endsWithSlash uri
    · cases hx : hasExtension uri
      · exact Or.inr (Or.inl ⟨rfl, rfl⟩)
      · exact Or.inr (Or.inr ⟨rfl, rfl⟩)
    · exact Or.inl rfl
  · refine ⟨?_, ?_, ?_⟩ <;> rintro ⟨h1, h2, h3⟩ <;> simp_all
  · intro he
    rw [hroute]
    simp only [spaRewrite, if_pos he]
  · rintro ⟨he, hx⟩
    rw [hroute]
    simp only [spaRewrite, he, hx]
    simp
  · rintro ⟨he, hx⟩
    rw [hroute]
    simp only [spaRewrite, he, hx]
    simp

/-- C3 witness: a path with a trailing extension on a valid tenant host
is prefixed and otherwise unchanged (no `index.html` appended). -/
theorem applySubdomainRouting_spa_witness :
    applySubdomainRouting (bytes "/app.js") (bytes "app.hosting.nipalm.com") =
      bytes "/app/app.js" :=
  ((applySubdomainRouting_spa (bytes "/app.js") (bytes "app.hosting.nipalm.com")
      (by decide) (by decide) (by decide) (by decide)).2.2.2.2
    ⟨by decide, by decide⟩).trans (by decide)

/- ## URL-encoded form handling (`URLSearchParams`) -/

/-- Upper-case hex digit byte. -/
def hexUpper (n : Nat) : Nat := if n < 10 then 48 + n else 55 + n

/-- `application/x-www-form-urlencoded` serialization of one byte:
space becomes `'+'`, unreserved bytes stay, the rest is `%XX`. -/
def formEncodeByte (b : Nat) : List Nat :=
  if b = 32 then [43]
  else if (48 ≤ b ∧ b ≤ 57) ∨ (65 ≤ b ∧ b ≤ 90) ∨ (97 ≤ b ∧ b ≤ 122) ∨
          b = 42 ∨ b = 45 ∨ b = 46 ∨ b = 95 then [b]
  else [37, hexUpper (b / 16), hexUpper (b % 16)]

def formEncode (s : List Nat) : List Nat :=
  (s.map formEncodeByte).flatten

/-- `URLSearchParams.prototype.toString()`: `name=value` pairs joined
with `'&'`, both sides form-encoded, in insertion order. -/
def serializeParams (ps : List (List Nat × List Nat)) : List Nat :=
  jsJoin 38 (ps.map fun p => formEncode p.1 ++ 61 :: formEncode p.2)

/-- `buildLoginUrl`: the hosted-login URL with the fixed
`response_type=code`, scope `openid email`, callback and state. -/
def buildLoginUrl (cognitoDomain clientId callbackUrl state : List Nat) : List Nat :=
  bytes "https://" ++ cognitoDomain ++ bytes "/login?" ++
    serializeParams
      [(bytes "client_id", clientId),
       (bytes "response_type", bytes "code"),
       (bytes "scope", bytes "openid email"),
       (bytes "redirect_uri", callbackUrl),
       (bytes "state", state)]

def hexVal (c : Nat) : Option Nat :=
  if 48 ≤ c ∧ c ≤ 57 then some (c - 48)
  else if 65 ≤ c ∧ c ≤ 70 then some (c - 55)
  else if 97 ≤ c ∧ c ≤ 102 then some (c - 87)
  else none

/-- Form-decoding: `'+'` to space, valid `%XX` to a byte, invalid
percent sequences passed through literally (WHATWG behaviour). -/
def formDecode : List Nat → List Nat
  | 37 :: h1 :: h2 :: rest =>
    match hexVal h1, hexVal h2 with
    | some v1, some v2 => (v1 * 16 + v2) :: formDecode rest
    | _, _ => 37 :: formDecode (h1 :: h2 :: rest)
  | 43 :: rest => 32 :: formDecode rest
  | b :: rest => b :: formDecode rest
  | [] => []

/-- `new URLSearchParams(qs)`: strip one leading `'?'`, split on `'&'`
skipping empty segments, split each segment at the first `'='`
(missing `'='` means empty value), form-decode names and values. -/
def parseParams (qs : List Nat) : List (List Nat × List Nat) :=
  let q := match qs with
    | 63 :: rest => rest
    | other => other
  (jsSplit 38 q).filterMap fun seg =>
    if seg = [] then none
    else some (formDecode (seg.takeWhile (· != 61)),
               formDecode ((seg.dropWhile (· != 61)).drop 1))

/-- `params.get(name)`: first value for the name, or `null`. -/
def qsGet (qs name : List Nat) : Option (List Nat) :=
  ((parseParams qs).find? fun p => p.1 == name).map Prod.snd

example : qsGet (bytes "code=abc123&state=Zm9v") (bytes "code") = some (bytes "abc123") := by
  decide

/- ## Cookie handling -/

def asciiWS (b : Nat) : Bool :=
  b = 32 || b = 9 || b = 10 || b = 11 || b = 12 || b = 13

/-- `String.prototype.trim` (whitespace relevant to `Cookie` headers). -/
def jsTrim (s : List Nat) : List Nat :=
  ((s.dropWhile asciiWS).reverse.dropWhile asciiWS).reverse

/-- `parseCookies`: split the header on `';'`, trim each part, split on
`'='`; keep entries with a non-empty name and at least one `'='`,
re-joining the value parts with `'='`.  Later duplicates overwrite
earlier ones in the JS object, hence `getCookie` takes the last match. -/
def parseCookies : Option (List Nat) → List (List Nat × List Nat)
  | none => []
  | some s =>
    (jsSplit 59 s).filterMap fun c =>
      match jsSplit 61 (jsTrim c) with
      | [] => none
      | name :: rest =>
        if name ≠ [] ∧ rest ≠ [] then some (name, jsJoin 61 rest) else none

def getCookie (cs : List (List Nat × List Nat)) (name : List Nat) : Option (List Nat) :=
  (cs.reverse.find? fun p => p.1 == name).map Prod.snd

example : getCookie (parseCookies (some (bytes "a=1; hosting_auth=tok; b=2"))) COOKIE_NAME =
    some (bytes "tok") := by decide

/-- `createAuthCookie` (the source's default argument `maxAge = 3600`
is passed explicitly at the single call site in this model). -/
def createAuthCookie (idToken : Option (List Nat)) (maxAge : Nat) : List Nat :=
  COOKIE_NAME ++ bytes "=" ++ idToken.getD (bytes "undefined") ++ bytes "; Domain=" ++
    COOKIE_DOMAIN ++ bytes "; Path=/; Secure; HttpOnly; SameSite=Lax; Max-Age=" ++
    bytes (toString maxAge)

/- ## Effect model for the handler -/

structure Config where
  cognitoDomain : List Nat
  clientId : List Nat
  clientSecret : List Nat
  cognitoRegion : List Nat
  userPoolId : List Nat
  callbackUrl : List Nat
deriving DecidableEq

/-- Outcome of the SSM fetch + JSON parse in `loadConfig`. -/
inductive ConfigOutcome
  | unreachable
  | noValue
  | unparseable
  | value (c : Option Config)
deriving DecidableEq

/-- `loadConfig`: an unreachable store, a parameter without a value and
an unparseable value all throw; a parsed value (possibly JSON `null`)
is returned.  (The process-wide cache only memoizes the success value
and is invisible to a single invocation, so it is not modelled.) -/
def loadConfig : ConfigOutcome → Except Unit (Option Config)
  | .unreachable => .error ()
  | .noValue => .error ()
  | .unparseable => .error ()
  | .value c => .ok c

/-- Shape of the token-endpoint response body as `response.json()`
sees it: not JSON at all, or a JSON object with optional fields. -/
inductive JsonBody
  | invalid
  | fields (idToken accessToken refreshToken : Option (List Nat))
deriving DecidableEq

/-- Outcome of the `fetch` to the token endpoint. -/
inductive FetchOutcome
  | networkError
  | response (ok : Bool) (body : JsonBody)
deriving DecidableEq

structure Tokens where
  idToken : Option (List Nat)
  accessToken : Option (List Nat)
  refreshToken : Option (List Nat)
deriving DecidableEq

/-- `exchangeCodeForTokens`: a non-ok HTTP status returns `null`; but a
rejected `fetch` (network failure) and a non-JSON body (`json()`
rejects) escape as exceptions — the source has no `try`/`catch` here —
and a JSON body missing fields yields a tokens object with absent
fields, not `null`.  The string arguments only feed the HTTP request,
which the `FetchOutcome` oracle abstracts. -/
def exchangeCodeForTokens (f : FetchOutcome)
    (_code _callbackUrl _cognitoDomain _clientId _clientSecret : List Nat) :
    Except Unit (Option Tokens) :=
  match f with
  | .networkError => .error ()
  | .response false _ => .ok none
  | .response true .invalid => .error ()
  | .response true (.fields idt act rft) => .ok (some ⟨idt, act, rft⟩)

/-- Does the modelled `fetch`/`json()` pair throw? -/
def exchangeThrows : FetchOutcome → Bool
  | .networkError => true
  | .response true .invalid => true
  | _ => false

structure World where
  configOutcome : ConfigOutcome
  fetchOutcome : FetchOutcome
  joseVerify : List Nat → Except Unit Unit

/-- `verifyToken`: `jose.jwtVerify` (signature + issuer + audience +
expiry, abstracted by the oracle) inside `try`/`catch`; every failure
collapses to `false`. -/
def verifyToken (w : World) (token _userPoolId _region _clientId : List Nat) : Bool :=
  match w.joseVerify token with
  | .ok _ => true
  | .error _ => false

structure Request where
  uri : List Nat
  querystring : List Nat
  hostHeader : Option (List Nat)
  cookieHeader : Option (List Nat)
deriving DecidableEq

structure Response where
  status : List Nat
  location : Option (List Nat)
  setCookie : List (List Nat)
  contentType : Option (List Nat)
  body : Option (List Nat)
deriving DecidableEq

/-- A CloudFront request handler returns either the (possibly
rewritten) request, forwarded to the origin, or a full response. -/
inductive HandlerResult
  | forward (r : Request)
  | response (r : Response)
deriving DecidableEq

/-- `redirect(location, cookies)`: 302 with `Location` and `Set-Cookie`. -/
def redirect (location : List Nat) (cookies : List (List Nat)) : Response :=
  ⟨bytes "302", some location, cookies, none, none⟩

/-- The styled 500 page returned when config loading fails (body of the
source's `catch` branch; `{`, `}` and `'` written as escapes). -/
def errorPageBody : List Nat := bytes "<!DOCTYPE html>
<html lang=\"en\">
<head>
    <meta charset=\"UTF-8\">
    <meta name=\"viewport\" content=\"width=device-width, initial-scale=1.0\">
    <title>500 - Service Error</title>
    <style>
        body \x7b
            font-family: Baskerville, \x27Palatino Linotype\x27, Georgia, serif;
            display: flex;
            justify-content: center;
            align-items: center;
            min-height: 100vh;
            margin: 0;
            background: linear-gradient(145deg, #0d1f0d 0%, #1a3a1a 50%, #0f2810 100%);
            color: #c9b896;
        \x7d
        .container \x7b text-align: center; padding: 3rem; max-width: 480px; \x7d
        .ornament \x7b color: #d4af37; font-size: 1.5rem; letter-spacing: 0.5em; margin-bottom: 1rem; \x7d
        h1 \x7b font-size: 7rem; margin: 0; color: #d4af37; text-shadow: 2px 2px 4px rgba(0,0,0,0.5); font-weight: normal; letter-spacing: 0.15em; \x7d
        .message \x7b font-size: 1.4rem; margin: 1.5rem 0 0.5rem; font-style: italic; letter-spacing: 0.05em; \x7d
        .divider \x7b width: 60px; height: 1px; background: #d4af37; margin: 2rem auto; opacity: 0.5; \x7d
        .subtext \x7b font-size: 1rem; opacity: 0.7; margin-top: 2rem; line-height: 1.9; letter-spacing: 0.03em; \x7d
    </style>
</head>
<body>
    <div class=\"container\">
        <div class=\"ornament\">&#8226; &#8226; &#8226;</div>
        <h1>500</h1>
        <p class=\"message\">Most unfortunate, indeed.</p>
        <div class=\"divider\"></div>
        <p class=\"subtext\">The service has encountered a spot of bother.<br>Do try again in a moment.</p>
    </div>
</body>
</html>"

/-- The synthesized 500 response of the config-failure `catch` branch. -/
def error500 : Response :=
  ⟨bytes "500", none, [], some (bytes "text/html"), some errorPageBody⟩

/-- The `handler`, as a pure function of an effect oracle and the
request.  `Except.error` marks an exception the source does not catch
(it can only arise from the token-exchange `fetch`/`json()`). -/
def handler (w : World) (req : Request) : Except Unit HandlerResult :=
  let host := req.hostHeader.getD []
  let uri := req.uri
  let querystring := req.querystring
  match loadConfig w.configOutcome with
  | .error _ => .ok (.response error500)   -- catch: styled 500 page
  | .ok none => .ok (.response error500)   -- `if (!cfg) throw` lands in the same catch
  | .ok (some cfg) =>
    if uri = bytes "/_auth/callback" then
      let code := qsGet querystring (bytes "code")
      let state := qsGet querystring (bytes "state")
      if code.getD [] = [] then              -- `if (!code)`
        .ok (.response (redirect (bytes "/") []))
      else
        match exchangeCodeForTokens w.fetchOutcome (code.getD []) cfg.callbackUrl
            cfg.cognitoDomain cfg.clientId cfg.clientSecret with
        | .error e => .error e               -- uncaught rejection
        | .ok none => .ok (.response (redirect (bytes "/") []))
        | .ok (some tokens) =>
          let st := decodeState (state.getD [])   -- `decodeState(state || '')`
          .ok (.response (redirect (bytes "https://" ++ st.1 ++ st.2)
            [createAuthCookie tokens.idToken 3600]))
    else if host = APEX_DOMAIN ∧ uri ≠ bytes "/_auth/callback" then
      .ok (.forward ⟨bytes "/_errors/404.html", req.querystring, req.hostHeader,
        req.cookieHeader⟩)
    else
      let authToken := (getCookie (parseCookies req.cookieHeader) COOKIE_NAME).getD []
      if authToken ≠ [] ∧
          verifyToken w authToken cfg.userPoolId cfg.cognitoRegion cfg.clientId then
        .ok (.forward ⟨applySubdomainRouting uri host, req.querystring, req.hostHeader,
          req.cookieHeader⟩)
      else
        let originalPath := uri ++ (if querystring = [] then [] else 63 :: querystring)
        let state := encodeState host originalPath
        .ok (.response (redirect
          (buildLoginUrl cfg.cognitoDomain cfg.clientId cfg.callbackUrl state) []))

deriving instance DecidableEq for Except

example : (Except.ok (some 3) : Except Unit (Option Nat)) ≠ Except.error () := by decide

/- ## Concrete worlds and requests for witnesses/counterexamples -/

def cfgDemo : Config :=
  ⟨bytes "auth.example.com", bytes "client", bytes "secret", bytes "us-east-1",
   bytes "pool", bytes "https://hosting.nipalm.com/_auth/callback"⟩

/-- A world whose token-endpoint `fetch` rejects and whose `jwtVerify`
rejects every token. -/
def networkFailWorld : World :=
  ⟨ConfigOutcome.value (some cfgDemo), FetchOutcome.networkError, fun _ => Except.error ()⟩

/-- A world whose token exchange succeeds and whose `jwtVerify`
accepts every token. -/
def happyWorld : World :=
  ⟨ConfigOutcome.value (some cfgDemo),
   FetchOutcome.response true
     (JsonBody.fields (some (bytes "idtok")) (some (bytes "acctok")) none),
   fun _ => Except.ok ()⟩

/-- A world whose secret store is unreachable. -/
def noConfigWorld : World :=
  ⟨ConfigOutcome.unreachable, FetchOutcome.networkError, fun _ => Except.error ()⟩

def callbackReq : Request :=
  ⟨bytes "/_auth/callback", bytes "code=abc123", some APEX_DOMAIN, none⟩

def callbackStateReq : Request :=
  ⟨bytes "/_auth/callback",
   bytes "code=abc123&state=YXBwLmV4YW1wbGUuY29tfC9kYXNoYm9hcmQ=",
   some APEX_DOMAIN, none⟩

/- ## Claim C7 — handler totality -/

/-- C7 (counterexample): a network failure of the token-exchange
`fetch` on a callback request escapes the handler as an uncaught
exception — the invocation crashes instead of producing a response. -/
theorem handler_crash_cex :
    handler networkFailWorld callbackReq = Except.error () := by decide

/-- C7 (amended): every request terminates in a well-formed outcome
(a forwarded request or a complete response) *provided* the
token-exchange `fetch`/`json()` does not throw — a rejected `fetch` or
a non-JSON body on the callback path escapes uncaught (see the
counterexample); and whenever config loading fails (store unreachable,
no value, unparseable value, or a parsed `null`), the handler returns
the synthesized styled 500 error page. -/
theorem handler_terminates (w : World) (req : Request) :
    (exchangeThrows w.fetchOutcome = false → ∃ r, handler w req = Except.ok r) ∧
    ((w.configOutcome = ConfigOutcome.unreachable ∨
      w.configOutcome = ConfigOutcome.noValue ∨
      w.configOutcome = ConfigOutcome.unparseable ∨
      w.configOutcome = ConfigOutcome.value none) →
      handler w req = Except.ok (HandlerResult.response error500)) := by
  constructor
  · intro hnet
    simp only [handler]
    split
    · exact ⟨_, rfl⟩
    · exact ⟨_, rfl⟩
    · split
      · split
        · exact ⟨_, rfl⟩
        · split
          · rename_i e heq
            rcases hfo : w.fetchOutcome with _ | ⟨ok, body⟩
            · rw [hfo] at hnet
              simp [exchangeThrows] at hnet
            · rw [hfo] at heq
              cases ok with
              | false => simp [exchangeCodeForTokens] at heq
              | true =>
                cases body with
                | invalid =>
                  rw [hfo] at hnet
                  simp [exchangeThrows] at hnet
                | fields a b c => simp [exchangeCodeForTokens] at heq
          · exact ⟨_, rfl⟩
          · exact ⟨_, rfl⟩
      · split
        · exact ⟨_, rfl⟩
        · split
          · exact ⟨_, rfl⟩
          · exact ⟨_, rfl⟩
  · intro hc
    rcases hc with h | h | h | h <;> simp [handler, h, loadConfig]

/-- C7 witness: a throw-free world terminates with `ok`, and an
unreachable secret store produces the styled 500 page. -/
theorem handler_terminates_witness :
    (∃ r, handler happyWorld callbackReq = Except.ok r) ∧
    handler noConfigWorld callbackReq = Except.ok (HandlerResult.response error500) :=
  ⟨(handler_terminates happyWorld callbackReq).1 (by decide),
   (handler_terminates noConfigWorld callbackReq).2 (Or.inl rfl)⟩

/- ## Claim C9 — apex domain bypasses the session check -/

/-- C9: a non-callback request whose host is the apex domain is
forwarded with its URI rewritten to the fixed 404 error page.  The
statement is universally quantified over the cookie header (inside
`req`) and over the `jwtVerify` oracle (inside `w`), so the outcome is
independent of both: the cookie is never consulted and session
verification is never invoked. -/
theorem handler_apex (w : World) (req : Request) (cfg : Config)
    (hcfg : w.configOutcome = ConfigOutcome.value (some cfg))
    (hhost : req.hostHeader.getD [] = APEX_DOMAIN)
    (huri : req.uri ≠ bytes "/_auth/callback") :
    handler w req = Except.ok (HandlerResult.forward
      ⟨bytes "/_errors/404.html", req.querystring, req.hostHeader, req.cookieHeader⟩) := by
  simp only [handler, hcfg, loadConfig]
  rw [if_neg huri, if_pos ⟨hhost, huri⟩]

def apexReq : Request :=
  ⟨bytes "/somepage", [], some APEX_DOMAIN, some (bytes "hosting_auth=sometoken")⟩

/-- C9 witness: concrete apex request carrying a cookie, in a world
whose verifier would reject — the 404 rewrite is returned either way. -/
theorem handler_apex_witness :
    handler networkFailWorld apexReq = Except.ok (HandlerResult.forward
      ⟨bytes "/_errors/404.html", [], some APEX_DOMAIN,
       some (bytes "hosting_auth=sometoken")⟩) :=
  handler_apex networkFailWorld apexReq cfgDemo rfl (by decide) (by decide)

/- ## Claim C4 — invalid session token behaves exactly like no cookie -/

/-- C4: for a non-callback, non-apex request, a session cookie whose
token fails verification (`verifyToken` collapses every `jwtVerify`
rejection — bad signature, wrong issuer/audience, expiry, malformed —
to the boolean `false`; no error crosses that boundary) yields exactly
the same login-redirect response as the identical request with no
cookie header at all. -/
theorem handler_invalid_token (w : World) (req : Request) (cfg : Config) (t : List Nat)
    (hcfg : w.configOutcome = ConfigOutcome.value (some cfg))
    (huri : req.uri ≠ bytes "/_auth/callback")
    (hhost : req.hostHeader.getD [] ≠ APEX_DOMAIN)
    (hcookie : getCookie (parseCookies req.cookieHeader) COOKIE_NAME = some t)
    (hbad : verifyToken w t cfg.userPoolId cfg.cognitoRegion cfg.clientId = false) :
    handler w req = handler w ⟨req.uri, req.querystring, req.hostHeader, none⟩ ∧
    handler w req = Except.ok (HandlerResult.response (redirect
      (buildLoginUrl cfg.cognitoDomain cfg.clientId cfg.callbackUrl
        (encodeState (req.hostHeader.getD [])
          (req.uri ++ (if req.querystring = [] then [] else 63 :: req.querystring)))) [])) := by
  have h2 : handler w req = Except.ok (HandlerResult.response (redirect
      (buildLoginUrl cfg.cognitoDomain cfg.clientId cfg.callbackUrl
        (encodeState (req.hostHeader.getD [])
          (req.uri ++ (if req.querystring = [] then [] else 63 :: req.querystring)))) [])) := by
    simp only [handler, hcfg, loadConfig]
    rw [if_neg huri, if_neg (fun hc => hhost hc.1), hcookie]
    simp only [Option.getD_some]
    rw [if_neg (fun hc => by rw [hbad] at hc; exact absurd hc.2 (by decide))]
  have h2' : handler w ⟨req.uri, req.querystring, req.hostHeader, none⟩ =
      Except.ok (HandlerResult.response (redirect
      (buildLoginUrl cfg.cognitoDomain cfg.clientId cfg.callbackUrl
        (encodeState (req.hostHeader.getD [])
          (req.uri ++ (if req.querystring = [] then [] else 63 :: req.querystring)))) [])) := by
    simp only [handler, hcfg, loadConfig]
    rw [if_neg huri, if_neg (fun hc => hhost hc.1)]
    simp only [parseCookies, getCookie, List.reverse_nil, List.find?_nil,
      Option.map_none, Option.getD_none]
    rw [if_neg (fun hc => hc.1 rfl)]
  exact ⟨h2.trans h2'.symm, h2⟩

def invalidTokenReq : Request :=
  ⟨bytes "/dashboard", [], some (bytes "app.hosting.nipalm.com"),
   some (bytes "hosting_auth=badtoken")⟩

/-- C4 witness: concrete request with a rejected token in a world whose
verifier rejects everything. -/
theorem handler_invalid_token_witness :
    handler networkFailWorld invalidTokenReq =
      handler networkFailWorld ⟨bytes "/dashboard", [],
        some (bytes "app.hosting.nipalm.com"), none⟩ ∧
    handler networkFailWorld invalidTokenReq =
      Except.ok (HandlerResult.response (redirect
        (buildLoginUrl cfgDemo.cognitoDomain cfgDemo.clientId cfgDemo.callbackUrl
          (encodeState (bytes "app.hosting.nipalm.com") (bytes "/dashboard"))) [])) :=
  handler_invalid_token networkFailWorld invalidTokenReq cfgDemo (bytes "badtoken")
    rfl (by decide) (by decide) (by decide) rfl

/- ## Claim C5 — token-exchange failure handling -/

/-- C5 (counterexample): a network failure of the token-endpoint fetch
does *not* yield `None` — the rejection escapes `exchangeCodeForTokens`
(which has no `try`/`catch`) as an exception. -/
theorem exchangeCodeForTokens_network_cex :
    exchangeCodeForTokens FetchOutcome.networkError (bytes "abc123")
        (bytes "https://hosting.nipalm.com/_auth/callback") (bytes "auth.example.com")
        (bytes "client") (bytes "secret") = Except.error () ∧
    (Except.error () : Except Unit (Option Tokens)) ≠ Except.ok none :=
  ⟨rfl, by decide⟩

/-- C5 (amended): a non-success HTTP status from the token endpoint
yields `None` (for every body), and on `None` the callback handler
responds by redirecting the user to the site root; however a network
failure of the request or a non-JSON response body escapes as an
uncaught exception rather than `None` (see the counterexample). -/
theorem exchange_http_failure_yields_none (w : World) (req : Request) (cfg : Config)
    (body : JsonBody) (c cb dom cid sec : List Nat)
    (hcfg : w.configOutcome = ConfigOutcome.value (some cfg))
    (huri : req.uri = bytes "/_auth/callback")
    (hcode : qsGet req.querystring (bytes "code") = some c)
    (hc : c ≠ [])
    (hex : exchangeCodeForTokens w.fetchOutcome c cfg.callbackUrl cfg.cognitoDomain
      cfg.clientId cfg.clientSecret = Except.ok none) :
    exchangeCodeForTokens (FetchOutcome.response false body) c cb dom cid sec =
      Except.ok none ∧
    handler w req = Except.ok (HandlerResult.response (redirect (bytes "/") [])) := by
  refine ⟨rfl, ?_⟩
  simp only [handler, hcfg, loadConfig]
  rw [if_pos huri, hcode]
  simp only [Option.getD_some]
  rw [if_neg hc, hex]

/-- C5 witness: concrete callback request in a world whose token
endpoint answers with a non-success status. -/
theorem exchange_http_failure_witness :
    exchangeCodeForTokens (FetchOutcome.response false JsonBody.invalid) (bytes "abc123")
        (bytes "cb") (bytes "dom") (bytes "cid") (bytes "sec") = Except.ok none ∧
    handler ⟨ConfigOutcome.value (some cfgDemo),
        FetchOutcome.response false JsonBody.invalid, fun _ => Except.error ()⟩
        callbackReq = Except.ok (HandlerResult.response (redirect (bytes "/") [])) :=
  exchange_http_failure_yields_none
    ⟨ConfigOutcome.value (some cfgDemo), FetchOutcome.response false JsonBody.invalid,
      fun _ => Except.error ()⟩
    callbackReq cfgDemo JsonBody.invalid (bytes "abc123") (bytes "cb") (bytes "dom")
    (bytes "cid") (bytes "sec") rfl rfl (by decide) (by decide) rfl

/- ## Claim C8 — successful callback: redirect plus session cookie -/

theorem createAuthCookie_3600 (idt : List Nat) :
    createAuthCookie (some idt) 3600 =
      bytes "hosting_auth=" ++ idt ++
        bytes "; Domain=.hosting.nipalm.com; Path=/; Secure; HttpOnly; SameSite=Lax; Max-Age=3600" := by
  have hname : bytes "hosting_auth=" = bytes "hosting_auth" ++ bytes "=" := by decide
  have htail : bytes "; Domain=" ++ (bytes ".hosting.nipalm.com" ++
      (bytes "; Path=/; Secure; HttpOnly; SameSite=Lax; Max-Age=" ++ bytes (toString 3600))) =
      bytes "; Domain=.hosting.nipalm.com; Path=/; Secure; HttpOnly; SameSite=Lax; Max-Age=3600" := by
    decide
  simp only [createAuthCookie, Option.getD_some, COOKIE_NAME, COOKIE_DOMAIN,
    List.append_assoc, hname]
  rw [← htail]

/-- C8: a callback request with a (truthy) `code` parameter whose token
exchange succeeds returns a 302 whose `Location` is `https://` followed
by the host and path decoded from the `state` parameter, and a single
`Set-Cookie` carrying the id token under the fixed cookie name, scoped
to the wildcard base domain, path `/`, `Secure`, `HttpOnly`,
`SameSite=Lax`, `Max-Age=3600`. -/
theorem handler_callback_success (w : World) (req : Request) (cfg : Config)
    (c : List Nat) (tokens : Tokens) (idt : List Nat)
    (hcfg : w.configOutcome = ConfigOutcome.value (some cfg))
    (huri : req.uri = bytes "/_auth/callback")
    (hcode : qsGet req.querystring (bytes "code") = some c)
    (hc : c ≠ [])
    (hex : exchangeCodeForTokens w.fetchOutcome c cfg.callbackUrl cfg.cognitoDomain
      cfg.clientId cfg.clientSecret = Except.ok (some tokens))
    (hidt : tokens.idToken = some idt) :
    handler w req = Except.ok (HandlerResult.response
      ⟨bytes "302",
       some (bytes "https://" ++
         (decodeState ((qsGet req.querystring (bytes "state")).getD [])).1 ++
         (decodeState ((qsGet req.querystring (bytes "state")).getD [])).2),
       [bytes "hosting_auth=" ++ idt ++
         bytes "; Domain=.hosting.nipalm.com; Path=/; Secure; HttpOnly; SameSite=Lax; Max-Age=3600"],
       none, none⟩) := by
  simp only [handler, hcfg, loadConfig]
  rw [if_pos huri, hcode]
  simp only [Option.getD_some]
  rw [if_neg hc, hex]
  simp only [redirect, hidt, createAuthCookie_3600]

/-- C8 witness: `code=abc123` and a state encoding
`("app.example.com", "/dashboard")` yield a 302 to
`https://app.example.com/dashboard` with the session cookie. -/
theorem handler_callback_success_witness :
    handler happyWorld callbackStateReq = Except.ok (HandlerResult.response
      ⟨bytes "302", some (bytes "https://app.example.com/dashboard"),
       [bytes "hosting_auth=idtok; Domain=.hosting.nipalm.com; Path=/; Secure; HttpOnly; SameSite=Lax; Max-Age=3600"],
       none, none⟩) :=
  (handler_callback_success happyWorld callbackStateReq cfgDemo (bytes "abc123")
      ⟨some (bytes "idtok"), some (bytes "acctok"), none⟩ (bytes "idtok")
      rfl rfl (by decide) (by decide) rfl rfl).trans (by decide)
